import Mathlib

/-!
Shallow embedding of the SIA repository's signal-fusion engine
(`app/services/strategy_engine.py`), indicator processing
(`app/services/data_service.py`) and advisory layer
(`app/services/llm_service.py`).

Numeric modelling: Python floats are modelled by `ℚ` where the code only
adds, multiplies, compares and divides (pandas `NaN` cells are modelled by
`Option`, with `none` = NaN; float comparisons against NaN are `False`,
matching IEEE), and by `ℝ` where a square root occurs (Bollinger standard
deviation).  IEEE infinities arising from division by an exactly-zero
denominator are not modelled except in the RSI quotient, where the source's
`100 - 100/(1+gain/0) = 100` is folded into the definition; no claim below
depends on the remaining cases.
-/

namespace SIA

/-- The three action strings `"买入"`, `"卖出"`, `"持有"` of the source. -/
inductive Act where
  | buy
  | sell
  | hold
deriving DecidableEq, Fintype

/-- `Signal` dataclass of `strategy_engine.py`. -/
structure Signal where
  name : String
  signal : Act
  confidence : ℚ
  details : String
deriving DecidableEq

/-- Result dict of `StrategyEngine.analyze`. -/
structure StrategyResult where
  signals : List Signal
  final_action : Act
  confidence : ℚ
  votes : Act → ℕ

/-- Python tuple comparison `(votes[x], conf[x]) > (votes[y], conf[y])`:
lexicographic, first component first. -/
def tupleGt (p q : ℕ × ℚ) : Bool :=
  decide (q.1 < p.1) || (decide (p.1 = q.1) && decide (q.2 < p.2))

/-- Vote tally of `StrategyEngine.analyze` (`votes[s['signal']] += 1`). -/
def votesOf (s1 s2 s3 : Signal) (a : Act) : ℕ :=
  (if s1.signal = a then 1 else 0) + (if s2.signal = a then 1 else 0) +
    (if s3.signal = a then 1 else 0)

/-- Confidence tally of `StrategyEngine.analyze`
(`total_confidence[s['signal']] += s['confidence']`). -/
def confSumOf (s1 s2 s3 : Signal) (a : Act) : ℚ :=
  (if s1.signal = a then s1.confidence else 0) +
    (if s2.signal = a then s2.confidence else 0) +
    (if s3.signal = a then s3.confidence else 0)

/-- The key `lambda x: (votes[x], total_confidence[x])`. -/
def aggKey (s1 s2 s3 : Signal) (a : Act) : ℕ × ℚ :=
  (votesOf s1 s2 s3 a, confSumOf s1 s2 s3 a)

/-- Python `max(votes, key=...)` over the dict `{'买入', '卖出', '持有'}` in
insertion order: scans left to right, replacing the current best only on a
strictly greater key (so the earliest maximal key wins). -/
def pyMax3 (key : Act → ℕ × ℚ) : Act :=
  let b2 := if tupleGt (key Act.sell) (key Act.buy) then Act.sell else Act.buy
  if tupleGt (key Act.hold) (key b2) then Act.hold else b2

/-- `StrategyEngine.analyze`, voting part (lines 252-271 of the source),
taking the three strategy signals as inputs. -/
def aggregate (s1 s2 s3 : Signal) : StrategyResult :=
  let f := pyMax3 (aggKey s1 s2 s3)
  { signals := [s1, s2, s3]
    final_action := f
    confidence :=
      if 0 < votesOf s1 s2 s3 f then
        confSumOf s1 s2 s3 f / (votesOf s1 s2 s3 f : ℚ)
      else 1/2
    votes := votesOf s1 s2 s3 }

lemma tupleGt_eq_true_iff (p q : ℕ × ℚ) :
    tupleGt p q = true ↔ (q.1 < p.1 ∨ (p.1 = q.1 ∧ q.2 < p.2)) := by
  simp [tupleGt]

lemma tupleGt_eq_false_iff (p q : ℕ × ℚ) :
    tupleGt p q = false ↔ (p.1 < q.1 ∨ (p.1 = q.1 ∧ p.2 ≤ q.2)) := by
  constructor
  · intro h
    have h' : ¬ (q.1 < p.1 ∨ (p.1 = q.1 ∧ q.2 < p.2)) := by
      intro hc
      rw [← tupleGt_eq_true_iff] at hc
      rw [h] at hc
      exact Bool.false_ne_true hc
    push_neg at h'
    rcases lt_trichotomy p.1 q.1 with h1 | h1 | h1
    · exact Or.inl h1
    · exact Or.inr ⟨h1, h'.2 h1⟩
    · exact absurd h1 (not_lt_of_le h'.1)
  · intro h
    cases hb : tupleGt p q
    · rfl
    · rw [tupleGt_eq_true_iff] at hb
      exfalso
      rcases h with h | ⟨h1, h2⟩ <;> rcases hb with hb | ⟨hb1, hb2⟩
      · omega
      · omega
      · omega
      · exact absurd hb2 (not_lt_of_le h2)

lemma tupleGt_irrefl (p : ℕ × ℚ) : tupleGt p p = false := by
  rw [tupleGt_eq_false_iff]
  exact Or.inr ⟨rfl, le_refl _⟩

lemma tupleGt_asymm {p q : ℕ × ℚ} (h : tupleGt p q = true) :
    tupleGt q p = false := by
  rw [tupleGt_eq_true_iff] at h
  rw [tupleGt_eq_false_iff]
  rcases h with h | ⟨h1, h2⟩
  · exact Or.inl h
  · exact Or.inr ⟨h1.symm, le_of_lt h2⟩

/-- `a < b` and `b < c` (as `tupleGt` facts) give `¬ a > c`. -/
lemma tupleGt_chain {a b c : ℕ × ℚ} (h1 : tupleGt b a = true)
    (h2 : tupleGt c b = true) : tupleGt a c = false := by
  rw [tupleGt_eq_true_iff] at h1 h2
  rw [tupleGt_eq_false_iff]
  rcases h1 with h1 | ⟨h1, h1'⟩ <;> rcases h2 with h2 | ⟨h2, h2'⟩
  · exact Or.inl (lt_trans h1 h2)
  · exact Or.inl (by omega)
  · exact Or.inl (by omega)
  · exact Or.inr ⟨by omega, le_of_lt (lt_trans h1' h2')⟩

/-- `p ≤ q` and `q < r` give `¬ p > r`. -/
lemma tupleGt_le_lt {p q r : ℕ × ℚ} (h1 : tupleGt p q = false)
    (h2 : tupleGt r q = true) : tupleGt p r = false := by
  rw [tupleGt_eq_false_iff] at h1 ⊢
  rw [tupleGt_eq_true_iff] at h2
  rcases h1 with h1 | ⟨h1, h1'⟩ <;> rcases h2 with h2 | ⟨h2, h2'⟩
  · exact Or.inl (lt_trans h1 h2)
  · exact Or.inl (by omega)
  · exact Or.inl (by omega)
  · exact Or.inr ⟨by omega, le_trans h1' (le_of_lt h2')⟩

/-- The scanned maximum really is a maximum of the key. -/
lemma pyMax3_spec (key : Act → ℕ × ℚ) (a : Act) :
    tupleGt (key a) (key (pyMax3 key)) = false := by
  unfold pyMax3
  by_cases h1 : tupleGt (key Act.sell) (key Act.buy) = true
  · simp only [h1, if_true]
    by_cases h2 : tupleGt (key Act.hold) (key Act.sell) = true
    · simp only [h2, if_true]
      cases a
      · exact tupleGt_chain h1 h2
      · exact tupleGt_asymm h2
      · exact tupleGt_irrefl _
    · rw [Bool.not_eq_true] at h2
      simp only [h2, Bool.false_eq_true, if_false]
      cases a
      · exact tupleGt_asymm h1
      · exact tupleGt_irrefl _
      · exact h2
  · simp only [Bool.not_eq_true] at h1
    simp only [h1, Bool.false_eq_true, if_false]
    by_cases h2 : tupleGt (key Act.hold) (key Act.buy) = true
    · simp only [h2, if_true]
      cases a
      · exact tupleGt_asymm h2
      · exact tupleGt_le_lt h1 h2
      · exact tupleGt_irrefl _
    · simp only [Bool.not_eq_true] at h2
      simp only [h2, Bool.false_eq_true, if_false]
      cases a
      · exact tupleGt_irrefl _
      · exact h1
      · exact h2

/-- A strictly greatest key is picked. -/
lemma pyMax3_unique (key : Act → ℕ × ℚ) (w : Act)
    (h : ∀ a, a ≠ w → tupleGt (key w) (key a) = true) : pyMax3 key = w := by
  by_cases hf : pyMax3 key = w
  · exact hf
  · have h1 := pyMax3_spec key w
    have h2 := h (pyMax3 key) hf
    rw [h1] at h2
    exact absurd h2 Bool.false_ne_true

lemma votesOf_sum (s1 s2 s3 : Signal) :
    votesOf s1 s2 s3 Act.buy + votesOf s1 s2 s3 Act.sell +
      votesOf s1 s2 s3 Act.hold = 3 := by
  cases h1 : s1.signal <;> cases h2 : s2.signal <;> cases h3 : s3.signal <;>
    simp [votesOf, h1, h2, h3]

/-- The selected action always holds at least one of the three votes. -/
lemma votesOf_final_pos (s1 s2 s3 : Signal) :
    0 < votesOf s1 s2 s3 (pyMax3 (aggKey s1 s2 s3)) := by
  by_contra hcon
  push_neg at hcon
  have hsum := votesOf_sum s1 s2 s3
  have hb := pyMax3_spec (aggKey s1 s2 s3) Act.buy
  have hs := pyMax3_spec (aggKey s1 s2 s3) Act.sell
  have hh := pyMax3_spec (aggKey s1 s2 s3) Act.hold
  rw [tupleGt_eq_false_iff] at hb hs hh
  simp only [aggKey] at hb hs hh
  have hble : votesOf s1 s2 s3 Act.buy ≤
      votesOf s1 s2 s3 (pyMax3 (aggKey s1 s2 s3)) := by
    rcases hb with hb | ⟨hb, _⟩ <;> omega
  have hsle : votesOf s1 s2 s3 Act.sell ≤
      votesOf s1 s2 s3 (pyMax3 (aggKey s1 s2 s3)) := by
    rcases hs with hs | ⟨hs, _⟩ <;> omega
  have hhle : votesOf s1 s2 s3 Act.hold ≤
      votesOf s1 s2 s3 (pyMax3 (aggKey s1 s2 s3)) := by
    rcases hh with hh | ⟨hh, _⟩ <;> omega
  omega

/-- Claim C1: for every triple of strategy signals, the aggregator's final
action maximizes `(vote count, summed confidence)` in the lexicographic
(Python tuple) order; the winner always has at least one vote, so the
returned confidence is the winner's summed confidence divided by its vote
count (the `0.5` zero-vote default of line 264 is the unreachable else
branch); and in a one-vote-each tie the action whose single vote carries the
strictly highest summed confidence wins. -/
theorem C1_aggregate (s1 s2 s3 : Signal) :
    (∀ a, tupleGt (aggKey s1 s2 s3 a)
        (aggKey s1 s2 s3 ((aggregate s1 s2 s3).final_action)) = false)
    ∧ 0 < votesOf s1 s2 s3 ((aggregate s1 s2 s3).final_action)
    ∧ (aggregate s1 s2 s3).confidence =
        confSumOf s1 s2 s3 ((aggregate s1 s2 s3).final_action) /
          (votesOf s1 s2 s3 ((aggregate s1 s2 s3).final_action) : ℚ)
    ∧ ((∀ a, votesOf s1 s2 s3 a = 1) → ∀ w : Act,
        (∀ a, a ≠ w → confSumOf s1 s2 s3 a < confSumOf s1 s2 s3 w) →
        (aggregate s1 s2 s3).final_action = w) := by
  have hfa : (aggregate s1 s2 s3).final_action = pyMax3 (aggKey s1 s2 s3) := rfl
  refine ⟨?_, ?_, ?_, ?_⟩
  · intro a
    rw [hfa]
    exact pyMax3_spec _ a
  · rw [hfa]
    exact votesOf_final_pos s1 s2 s3
  · rw [hfa]
    show (if 0 < votesOf s1 s2 s3 (pyMax3 (aggKey s1 s2 s3)) then _ else _) = _
    rw [if_pos (votesOf_final_pos s1 s2 s3)]
  · intro hv w hw
    rw [hfa]
    refine pyMax3_unique _ w (fun a ha => ?_)
    rw [tupleGt_eq_true_iff]
    refine Or.inr ?_
    simp only [aggKey, hv]
    exact ⟨trivial, hw a ha⟩

/-- Witness for C1 at the spec's tie-break example
`[(Buy,0.9),(Sell,0.95),(Hold,0.5)]`: Sell wins. -/
theorem C1_aggregate_witness :
    (aggregate ⟨"双均线", Act.buy, 9/10, ""⟩ ⟨"RSI", Act.sell, 19/20, ""⟩
      ⟨"布林带", Act.hold, 1/2, ""⟩).final_action = Act.sell :=
  (C1_aggregate ⟨"双均线", Act.buy, 9/10, ""⟩ ⟨"RSI", Act.sell, 19/20, ""⟩
      ⟨"布林带", Act.hold, 1/2, ""⟩).2.2.2
    (by decide) Act.sell (by
      intro a ha
      cases a with
      | buy => simp [confSumOf]; norm_num
      | sell => exact absurd rfl ha
      | hold => simp [confSumOf]; norm_num)


/-- Python `round` to an integer: round-half-to-even (banker's rounding),
modelled exactly on `ℚ` (binary-float representation error is not
modelled). -/
def pyRound (x : ℚ) : ℤ :=
  let f : ℤ := ⌊x⌋
  let r : ℚ := x - f
  if r < 1/2 then f
  else if 1/2 < r then f + 1
  else if Even f then f else f + 1

/-- Python `round(x, 2)`. -/
def round2 (x : ℚ) : ℚ := (pyRound (x * 100) : ℚ) / 100

/-- `StrategyEngine.calculate_position` (lines 273-282 of
`strategy_engine.py`). -/
def calculate_position (total_capital confidence : ℚ) (final_action : Act) : ℚ :=
  if final_action ≠ Act.buy then 0
  else
    let position_pct := 1/10 + (confidence - 1/2) * (8/10)
    let position_pct := max (1/10) (min (1/2) position_pct)
    round2 (total_capital * position_pct)

/-- Claim C2: `calculate_position` returns 0 for any non-Buy action; for Buy
it returns `round2` of capital times the allocation fraction
`clamp(0.1 + (confidence - 0.5) * 0.8, 0.1, 0.5)`; confidence below 0.5 is
clamped to the 0.1 floor fraction; and on capital 10000 confidence 0.5
yields 1000.00 while confidence 1.0 yields 5000.00. -/
theorem C2_calculate_position (c x : ℚ) :
    (∀ a, a ≠ Act.buy → calculate_position c x a = 0)
    ∧ calculate_position c x Act.buy =
        round2 (c * max (1/10) (min (1/2) (1/10 + (x - 1/2) * (8/10))))
    ∧ (x < 1/2 → calculate_position c x Act.buy = round2 (c * (1/10)))
    ∧ calculate_position 10000 (1/2) Act.buy = 1000
    ∧ calculate_position 10000 1 Act.buy = 5000 := by
  refine ⟨?_, ?_, ?_, ?_, ?_⟩
  · intro a ha
    unfold calculate_position
    rw [if_pos ha]
  · unfold calculate_position
    simp
  · intro hx
    unfold calculate_position
    simp only [ne_eq, not_true_eq_false, if_false]
    have hpct : max (1/10 : ℚ) (min (1/2) (1/10 + (x - 1/2) * (8/10))) = 1/10 := by
      have h1 : (1/10 : ℚ) + (x - 1/2) * (8/10) < 1/10 := by nlinarith
      rw [min_eq_right (by linarith), max_eq_left (by linarith)]
    rw [hpct]
  · norm_num [calculate_position, round2, pyRound]
  · norm_num [calculate_position, round2, pyRound]

/-- Witness for C2: Sell at confidence 0.9 returns 0, and confidence 0.4 is
clamped to the 10% floor on capital 10000, giving 1000.00. -/
theorem C2_calculate_position_witness :
    calculate_position 10000 (9/10) Act.sell = 0
    ∧ calculate_position 10000 (4/10) Act.buy = round2 (10000 * (1/10)) :=
  ⟨(C2_calculate_position 10000 (9/10)).1 Act.sell (by decide),
   (C2_calculate_position 10000 (4/10)).2.2.1 (by norm_num)⟩

/-! ### Strategy embeddings (`strategy_engine.py`)

Prices are modelled as `List ℝ`.  A pandas rolling-window cell that the
source leaves as `NaN` is modelled as `none`; float comparisons involving
`NaN` are `False`, which the `o*` predicates below reproduce.  The numeric
part of Python f-string details (for example `RSI=63.1`) is elided from the
detail strings. -/

open scoped Classical

/-- `Series.rolling(window=w).mean()` at index `i`: defined only once `w`
observations are available. -/
noncomputable def rollMean (prices : List ℝ) (window i : ℕ) : Option ℝ :=
  if window ≤ i + 1 ∧ i < prices.length then
    some (((prices.drop (i + 1 - window)).take window).sum / (window : ℝ))
  else none

/-- Float `<` with `NaN` compares false. -/
def oLt (a b : Option ℝ) : Prop := ∃ x y, a = some x ∧ b = some y ∧ x < y

/-- Float `≤` with `NaN` compares false. -/
def oLe (a b : Option ℝ) : Prop := ∃ x y, a = some x ∧ b = some y ∧ x ≤ y

/-- Float `!=`: true when either side is `NaN`. -/
def oNe (a b : Option ℝ) : Prop := ¬ ∃ x y, a = some x ∧ b = some y ∧ x = y

/-- `NaN`-propagating division (IEEE infinities at zero denominators are
not modelled; see the file header). -/
noncomputable def oDiv : Option ℝ → Option ℝ → Option ℝ
  | some a, some b => some (a / b)
  | _, _ => none

/-- `NaN`-propagating subtraction. -/
noncomputable def oSub : Option ℝ → Option ℝ → Option ℝ
  | some a, some b => some (a - b)
  | _, _ => none

/-- `MovingAverageStrategy.analyze` (lines 24-87 of `strategy_engine.py`). -/
noncomputable def ma_analyze (short_window long_window : ℕ) (prices : List ℝ) :
    Signal :=
  if prices.length < long_window + 5 then
    ⟨"双均线", Act.hold, 1/2, "数据不足"⟩
  else
    let n := prices.length
    let current_price := prices.getD (n - 1) 0
    let current_ma_short := rollMean prices short_window (n - 1)
    let current_ma_long := rollMean prices long_window (n - 1)
    let prev_ma_short := rollMean prices short_window (n - 2)
    let prev_ma_long := rollMean prices long_window (n - 2)
    let short_trend : Option ℝ :=
      if 5 ≤ n then
        (oDiv current_ma_short (rollMean prices short_window (n - 5))).map
          (fun x => x - 1)
      else some 0
    let long_trend : Option ℝ :=
      if 10 ≤ n then
        (oDiv current_ma_long (rollMean prices long_window (n - 10))).map
          (fun x => x - 1)
      else some 0
    let golden_cross := oLe prev_ma_short prev_ma_long ∧
      oLt current_ma_long current_ma_short
    let death_cross := oLe prev_ma_long prev_ma_short ∧
      oLt current_ma_short current_ma_long
    let price_above_ma := oLt current_ma_short (some current_price)
    if golden_cross ∧ price_above_ma then
      ⟨"双均线", Act.buy, 17/20, "金叉形成，价格站上均线"⟩
    else if death_cross then
      ⟨"双均线", Act.sell, 4/5, "死叉形成，注意风险"⟩
    else if oLt current_ma_long current_ma_short ∧ oLt (some 0) short_trend then
      ⟨"双均线", Act.buy, 7/10, "短期均线在上且上升趋势"⟩
    else if oLt current_ma_short current_ma_long ∧
        oLt long_trend (some (-(2/100))) then
      ⟨"双均线", Act.sell, 7/10, "中长期趋势向下"⟩
    else if price_above_ma then
      ⟨"双均线", Act.hold, 3/5, "价格暂稳，均线整理中"⟩
    else
      ⟨"双均线", Act.hold, 11/20, "观望为主"⟩

/-- `delta.where(delta > 0, 0)` of the RSI code: per-index gains, with the
leading `NaN` delta replaced by `0` by `where`. -/
noncomputable def gainList (prices : List ℝ) : List ℝ :=
  (List.range prices.length).map (fun i =>
    if i = 0 then 0
    else if prices.getD (i - 1) 0 < prices.getD i 0 then
      prices.getD i 0 - prices.getD (i - 1) 0
    else 0)

/-- `-delta.where(delta < 0, 0)`: per-index losses (non-negative). -/
noncomputable def lossList (prices : List ℝ) : List ℝ :=
  (List.range prices.length).map (fun i =>
    if i = 0 then 0
    else if prices.getD i 0 < prices.getD (i - 1) 0 then
      prices.getD (i - 1) 0 - prices.getD i 0
    else 0)

/-- `rsi = 100 - 100/(1 + gain/loss)` at index `i`.  With `loss = 0` and
`gain > 0` the float code yields `rs = +inf` and hence exactly `100`;
with `loss = gain = 0` it yields `NaN` (`none`). -/
noncomputable def rsiAt (prices : List ℝ) (period i : ℕ) : Option ℝ :=
  match rollMean (gainList prices) period i, rollMean (lossList prices) period i with
  | some g, some l =>
      if l = 0 then (if g = 0 then none else some 100)
      else some (100 - 100 / (1 + g / l))
  | _, _ => none

/-- `RSIStrategy.analyze` (lines 98-153 of `strategy_engine.py`). -/
noncomputable def rsi_analyze (period : ℕ) (overbought oversold : ℝ)
    (prices : List ℝ) : Signal :=
  if prices.length < period + 5 then
    ⟨"RSI", Act.hold, 1/2, "数据不足"⟩
  else
    let n := prices.length
    let current_rsi := rsiAt prices period (n - 1)
    let rsi_trend : Option ℝ :=
      if 5 ≤ n then oSub current_rsi (rsiAt prices period (n - 5)) else some 0
    if oLe (some overbought) current_rsi then
      ⟨"RSI", Act.sell, 17/20, "超买区域"⟩
    else if oLe current_rsi (some oversold) then
      ⟨"RSI", Act.buy, 4/5, "超卖区域"⟩
    else if oLt (some 60) current_rsi ∧ oLt rsi_trend (some (-5)) then
      ⟨"RSI", Act.sell, 13/20, "RSI拐头向下，可能调整"⟩
    else if oLt current_rsi (some 40) ∧ oLt (some 5) rsi_trend then
      ⟨"RSI", Act.buy, 13/20, "RSI拐头向上，可能反弹"⟩
    else if oLt (some 50) current_rsi then
      ⟨"RSI", Act.hold, 11/20, "偏强区域"⟩
    else
      ⟨"RSI", Act.hold, 11/20, "偏弱区域"⟩

/-- `Series.rolling(window=w).std()` (sample standard deviation, `ddof=1`)
squared, i.e. the sample variance; `NaN` while fewer than `w` observations
are available, and for `w ≤ 1` (0/0). -/
noncomputable def rollVar (prices : List ℝ) (window i : ℕ) : Option ℝ :=
  if 2 ≤ window ∧ window ≤ i + 1 ∧ i < prices.length then
    some
      (((((prices.drop (i + 1 - window)).take window).map
          (fun x => (x - ((prices.drop (i + 1 - window)).take window).sum /
            (window : ℝ)) ^ 2)).sum) / ((window : ℝ) - 1))
  else none

/-- Rolling sample standard deviation. -/
noncomputable def rollStd (prices : List ℝ) (window i : ℕ) : Option ℝ :=
  (rollVar prices window i).map Real.sqrt

/-- `middle + std_dev * std` at index `i`. -/
noncomputable def bbUpperAt (prices : List ℝ) (window : ℕ) (mult : ℝ)
    (i : ℕ) : Option ℝ :=
  match rollMean prices window i, rollStd prices window i with
  | some m, some s => some (m + mult * s)
  | _, _ => none

/-- `middle - std_dev * std` at index `i`. -/
noncomputable def bbLowerAt (prices : List ℝ) (window : ℕ) (mult : ℝ)
    (i : ℕ) : Option ℝ :=
  match rollMean prices window i, rollStd prices window i with
  | some m, some s => some (m - mult * s)
  | _, _ => none

/-- `BollingerBandStrategy.analyze` (lines 163-225 of `strategy_engine.py`). -/
noncomputable def boll_analyze (window : ℕ) (std_dev : ℝ) (prices : List ℝ) :
    Signal :=
  if prices.length < window + 5 then
    ⟨"布林带", Act.hold, 1/2, "数据不足"⟩
  else
    let n := prices.length
    let current_price := prices.getD (n - 1) 0
    let current_upper := bbUpperAt prices window std_dev (n - 1)
    let current_lower := bbLowerAt prices window std_dev (n - 1)
    let current_middle := rollMean prices window (n - 1)
    let position : Option ℝ :=
      if oNe current_upper current_lower then
        oDiv (oSub (some current_price) current_lower)
          (oSub current_upper current_lower)
      else some (1/2)
    let bandwidth := oDiv (oSub current_upper current_lower) current_middle
    let prev_bandwidth := oDiv
      (oSub (bbUpperAt prices window std_dev (n - 2))
        (bbLowerAt prices window std_dev (n - 2)))
      (rollMean prices window (n - 2))
    let volatility_change : Option ℝ :=
      if oLt (some 0) prev_bandwidth then oDiv bandwidth prev_bandwidth
      else some 1
    if oLe current_upper (some current_price) then
      ⟨"布林带", Act.sell, 17/20, "价格触及上轨，警惕回调"⟩
    else if oLe (some current_price) current_lower then
      ⟨"布林带", Act.buy, 4/5, "价格触及下轨，可能反弹"⟩
    else if oLt (some (8/10)) position ∧ oLt (some (11/10)) volatility_change then
      ⟨"布林带", Act.sell, 7/10, "价格接近上轨且波动放大"⟩
    else if oLt position (some (2/10)) ∧ oLt (some (11/10)) volatility_change then
      ⟨"布林带", Act.buy, 7/10, "价格接近下轨且波动放大"⟩
    else if oLt (some (1/2)) position then
      ⟨"布林带", Act.hold, 11/20, "价格在中轨上方运行"⟩
    else
      ⟨"布林带", Act.hold, 11/20, "价格在中轨下方运行"⟩

/-- `StrategyEngine.analyze` end to end, with the engine's constructor
parameters `(5, 20)`, `(14, 70, 30)` and `(20, 2)`. -/
noncomputable def engine_analyze (prices : List ℝ) : StrategyResult :=
  aggregate (ma_analyze 5 20 prices) (rsi_analyze 14 70 30 prices)
    (boll_analyze 20 2 prices)

/-- Claim C3: each strategy, on a price history shorter than its required
window plus 5 (25 for the dual moving average, 19 for RSI, 25 for
Bollinger), returns Hold with confidence exactly 0.5 and the
"insufficient data" detail `数据不足`. -/
theorem C3_insufficient_data (prices : List ℝ) :
    (prices.length < 25 →
      ma_analyze 5 20 prices = ⟨"双均线", Act.hold, 1/2, "数据不足"⟩)
    ∧ (prices.length < 19 →
      rsi_analyze 14 70 30 prices = ⟨"RSI", Act.hold, 1/2, "数据不足"⟩)
    ∧ (prices.length < 25 →
      boll_analyze 20 2 prices = ⟨"布林带", Act.hold, 1/2, "数据不足"⟩) := by
  refine ⟨fun h => ?_, fun h => ?_, fun h => ?_⟩
  · unfold ma_analyze
    rw [if_pos h]
  · unfold rsi_analyze
    rw [if_pos h]
  · unfold boll_analyze
    rw [if_pos h]

/-- Witness for C3 on the empty price history. -/
theorem C3_insufficient_data_witness :
    ma_analyze 5 20 ([] : List ℝ) = ⟨"双均线", Act.hold, 1/2, "数据不足"⟩
    ∧ rsi_analyze 14 70 30 ([] : List ℝ) = ⟨"RSI", Act.hold, 1/2, "数据不足"⟩
    ∧ boll_analyze 20 2 ([] : List ℝ) = ⟨"布林带", Act.hold, 1/2, "数据不足"⟩ :=
  ⟨(C3_insufficient_data []).1 (by simp),
   (C3_insufficient_data []).2.1 (by simp),
   (C3_insufficient_data []).2.2 (by simp)⟩

/-- Every branch of the dual moving-average strategy emits one of the seven
confidence constants. -/
lemma ma_analyze_confidence_mem (short_window long_window : ℕ)
    (prices : List ℝ) :
    (ma_analyze short_window long_window prices).confidence ∈
      ({1/2, 11/20, 3/5, 13/20, 7/10, 4/5, 17/20} : Set ℚ) := by
  unfold ma_analyze
  dsimp only
  split_ifs <;> simp [Set.mem_insert_iff]

/-- Every branch of the RSI strategy emits one of the seven confidence
constants. -/
lemma rsi_analyze_confidence_mem (period : ℕ) (overbought oversold : ℝ)
    (prices : List ℝ) :
    (rsi_analyze period overbought oversold prices).confidence ∈
      ({1/2, 11/20, 3/5, 13/20, 7/10, 4/5, 17/20} : Set ℚ) := by
  unfold rsi_analyze
  dsimp only
  split_ifs <;> simp [Set.mem_insert_iff]

/-- Every branch of the Bollinger strategy emits one of the seven confidence
constants. -/
lemma boll_analyze_confidence_mem (window : ℕ) (std_dev : ℝ)
    (prices : List ℝ) :
    (boll_analyze window std_dev prices).confidence ∈
      ({1/2, 11/20, 3/5, 13/20, 7/10, 4/5, 17/20} : Set ℚ) := by
  unfold boll_analyze
  dsimp only
  split_ifs <;> simp [Set.mem_insert_iff]

lemma confSet_subset_Icc {x : ℚ}
    (h : x ∈ ({1/2, 11/20, 3/5, 13/20, 7/10, 4/5, 17/20} : Set ℚ)) :
    x ∈ Set.Icc (1/2 : ℚ) (17/20) := by
  simp only [Set.mem_insert_iff, Set.mem_singleton_iff] at h
  rcases h with h | h | h | h | h | h | h <;> rw [h] <;>
    exact ⟨by norm_num, by norm_num⟩

/-- The aggregated confidence is an average of the winner's voters, hence
stays inside any interval containing all three input confidences. -/
lemma aggregate_confidence_mem_Icc (s1 s2 s3 : Signal) (lo hi : ℚ)
    (h1 : s1.confidence ∈ Set.Icc lo hi) (h2 : s2.confidence ∈ Set.Icc lo hi)
    (h3 : s3.confidence ∈ Set.Icc lo hi) :
    (aggregate s1 s2 s3).confidence ∈ Set.Icc lo hi := by
  have hpos := votesOf_final_pos s1 s2 s3
  have hconf : (aggregate s1 s2 s3).confidence =
      confSumOf s1 s2 s3 (pyMax3 (aggKey s1 s2 s3)) /
        (votesOf s1 s2 s3 (pyMax3 (aggKey s1 s2 s3)) : ℚ) := by
    show (if 0 < votesOf s1 s2 s3 (pyMax3 (aggKey s1 s2 s3)) then _ else _) = _
    rw [if_pos hpos]
  rw [hconf]
  rcases h1 with ⟨h1l, h1r⟩
  rcases h2 with ⟨h2l, h2r⟩
  rcases h3 with ⟨h3l, h3r⟩
  unfold votesOf at hpos
  unfold votesOf confSumOf
  by_cases e1 : s1.signal = pyMax3 (aggKey s1 s2 s3) <;>
    by_cases e2 : s2.signal = pyMax3 (aggKey s1 s2 s3) <;>
    by_cases e3 : s3.signal = pyMax3 (aggKey s1 s2 s3) <;>
    simp_all [Set.mem_Icc] <;>
    constructor <;> linarith

/-- Claim C10: every signal of the three strategies carries an action among
Buy/Sell/Hold and a confidence in the finite set
`{0.5, 0.55, 0.6, 0.65, 0.7, 0.8, 0.85}`, so the engine's aggregated final
confidence always lies in `[0.5, 0.85]`. -/
theorem C10_confidence_invariant (prices : List ℝ) :
    (∀ s ∈ [ma_analyze 5 20 prices, rsi_analyze 14 70 30 prices,
        boll_analyze 20 2 prices],
      (s.signal = Act.buy ∨ s.signal = Act.sell ∨ s.signal = Act.hold)
      ∧ s.confidence ∈ ({1/2, 11/20, 3/5, 13/20, 7/10, 4/5, 17/20} : Set ℚ))
    ∧ (engine_analyze prices).confidence ∈ Set.Icc (1/2 : ℚ) (17/20) := by
  constructor
  · intro s hs
    refine ⟨by cases s.signal <;> simp, ?_⟩
    simp only [List.mem_cons, List.not_mem_nil, or_false] at hs
    rcases hs with h | h | h
    · rw [h]; exact ma_analyze_confidence_mem 5 20 prices
    · rw [h]; exact rsi_analyze_confidence_mem 14 70 30 prices
    · rw [h]; exact boll_analyze_confidence_mem 20 2 prices
  · exact aggregate_confidence_mem_Icc _ _ _ _ _
      (confSet_subset_Icc (ma_analyze_confidence_mem 5 20 prices))
      (confSet_subset_Icc (rsi_analyze_confidence_mem 14 70 30 prices))
      (confSet_subset_Icc (boll_analyze_confidence_mem 20 2 prices))

/-! ### `PriceDataProcessor` indicator functions (`data_service.py`)

The RSI indicator only adds, compares and divides, so it is embedded over
`ℚ` and stays executable; the Bollinger indicator needs a square root and is
embedded over `ℝ`. -/

/-- Executable (`ℚ`) counterpart of `rollMean`. -/
def rollMeanQ (xs : List ℚ) (window i : ℕ) : Option ℚ :=
  if window ≤ i + 1 ∧ i < xs.length then
    some (((xs.drop (i + 1 - window)).take window).sum / (window : ℚ))
  else none

/-- `delta.where(delta > 0, 0)` over `ℚ` (line 330 of `data_service.py`). -/
def gainListQ (prices : List ℚ) : List ℚ :=
  (List.range prices.length).map (fun i =>
    if i = 0 then 0
    else if prices.getD (i - 1) 0 < prices.getD i 0 then
      prices.getD i 0 - prices.getD (i - 1) 0
    else 0)

/-- `-delta.where(delta < 0, 0)` over `ℚ` (line 331 of `data_service.py`). -/
def lossListQ (prices : List ℚ) : List ℚ :=
  (List.range prices.length).map (fun i =>
    if i = 0 then 0
    else if prices.getD i 0 < prices.getD (i - 1) 0 then
      prices.getD (i - 1) 0 - prices.getD i 0
    else 0)

/-- `100 - 100/(1 + gain/loss)` over `ℚ`; as in `rsiAt`, a zero average loss
with positive average gain gives exactly 100 (float `+inf` ratio), and a
zero/zero ratio gives `NaN` (`none`). -/
def rsiAtQ (prices : List ℚ) (period i : ℕ) : Option ℚ :=
  match rollMeanQ (gainListQ prices) period i,
      rollMeanQ (lossListQ prices) period i with
  | some g, some l =>
      if l = 0 then (if g = 0 then none else some 100)
      else some (100 - 100 / (1 + g / l))
  | _, _ => none

/-- `PriceDataProcessor.calculate_rsi` (lines 322-335 of `data_service.py`):
zero-filled when fewer than `period + 1` prices exist, otherwise the rolling
RSI with `NaN` cells replaced by 50 (`fillna(50)`). -/
def calculate_rsi (prices : List ℚ) (period : ℕ) : List ℚ :=
  if prices.length < period + 1 then List.replicate prices.length 0
  else (List.range prices.length).map (fun i => (rsiAtQ prices period i).getD 50)

lemma getD_range_map {α : Type} (f : ℕ → α) (n i : ℕ) (h : i < n) (d : α) :
    ((List.range n).map f).getD i d = f i := by
  rw [List.getD_eq_getElem?_getD, List.getElem?_map, List.getElem?_range h]
  rfl

lemma gainListQ_nonneg (prices : List ℚ) : ∀ x ∈ gainListQ prices, 0 ≤ x := by
  intro x hx
  rcases List.mem_map.mp hx with ⟨i, _, rfl⟩
  split_ifs with h1 h2
  · exact le_refl 0
  · linarith
  · exact le_refl 0

lemma lossListQ_nonneg (prices : List ℚ) : ∀ x ∈ lossListQ prices, 0 ≤ x := by
  intro x hx
  rcases List.mem_map.mp hx with ⟨i, _, rfl⟩
  split_ifs with h1 h2
  · exact le_refl 0
  · linarith
  · exact le_refl 0

lemma rollMeanQ_nonneg {xs : List ℚ} (h : ∀ x ∈ xs, 0 ≤ x)
    {window i : ℕ} {g : ℚ} (hg : rollMeanQ xs window i = some g) : 0 ≤ g := by
  unfold rollMeanQ at hg
  split_ifs at hg with hc
  · have hsum : 0 ≤ ((xs.drop (i + 1 - window)).take window).sum := by
      refine List.sum_nonneg (fun x hx => ?_)
      exact h x (List.mem_of_mem_drop (List.mem_of_mem_take hx))
    have : g = ((xs.drop (i + 1 - window)).take window).sum / (window : ℚ) := by
      exact (Option.some_inj.mp hg).symm
    rw [this]
    exact div_nonneg hsum (by positivity)

lemma rsiAtQ_bounds {prices : List ℚ} {period i : ℕ} {r : ℚ}
    (hr : rsiAtQ prices period i = some r) : 0 ≤ r ∧ r ≤ 100 := by
  unfold rsiAtQ at hr
  cases hgg : rollMeanQ (gainListQ prices) period i with
  | none => rw [hgg] at hr; exact absurd hr (by simp)
  | some g =>
    cases hll : rollMeanQ (lossListQ prices) period i with
    | none => rw [hgg, hll] at hr; exact absurd hr (by simp)
    | some l =>
      rw [hgg, hll] at hr
      dsimp only at hr
      have hg0 : 0 ≤ g := rollMeanQ_nonneg (gainListQ_nonneg prices) hgg
      have hl0 : 0 ≤ l := rollMeanQ_nonneg (lossListQ_nonneg prices) hll
      by_cases hl : l = 0
      · rw [if_pos hl] at hr
        by_cases hg : g = 0
        · rw [if_pos hg] at hr
          exact absurd hr (by simp)
        · rw [if_neg hg] at hr
          have : r = 100 := (Option.some_inj.mp hr).symm
          rw [this]
          norm_num
      · rw [if_neg hl] at hr
        have hrval : r = 100 - 100 / (1 + g / l) := (Option.some_inj.mp hr).symm
        have hlpos : 0 < l := lt_of_le_of_ne hl0 (Ne.symm hl)
        have hratio : 0 ≤ g / l := div_nonneg hg0 (le_of_lt hlpos)
        have hden : (1 : ℚ) ≤ 1 + g / l := by linarith
        have hfrac_pos : 0 < 100 / (1 + g / l) := by positivity
        have hfrac_le : 100 / (1 + g / l) ≤ 100 := by
          rw [div_le_iff₀ (by linarith)]
          nlinarith
        constructor
        · rw [hrval]; linarith
        · rw [hrval]; linarith

/-- At an index whose rolling window is incomplete, the RSI cell is `NaN`. -/
lemma rsiAtQ_none_of_lt {prices : List ℚ} {period i : ℕ}
    (h : i + 1 < period) : rsiAtQ prices period i = none := by
  unfold rsiAtQ rollMeanQ
  rw [if_neg (by omega)]

/-- Claim C4 (amended): `calculate_rsi` preserves length and every output
value lies in `[0, 100]` (no `NaN`); when at least `period + 1` prices
exist the leading positions with an incomplete rolling window are filled
with the neutral 50, but when the whole input is shorter than `period + 1`
the output is zero-filled (50 is claimed but 0 is produced). -/
theorem C4_calculate_rsi (prices : List ℚ) (period : ℕ) :
    (calculate_rsi prices period).length = prices.length
    ∧ (∀ x ∈ calculate_rsi prices period, 0 ≤ x ∧ x ≤ 100)
    ∧ (period + 1 ≤ prices.length → ∀ i, i < period - 1 →
        (calculate_rsi prices period).getD i 0 = 50)
    ∧ (prices.length < period + 1 →
        calculate_rsi prices period = List.replicate prices.length 0) := by
  refine ⟨?_, ?_, ?_, ?_⟩
  · unfold calculate_rsi
    split_ifs
    · rw [List.length_replicate]
    · rw [List.length_map, List.length_range]
  · intro x hx
    unfold calculate_rsi at hx
    split_ifs at hx
    · rw [List.eq_of_mem_replicate hx]
      norm_num
    · rcases List.mem_map.mp hx with ⟨i, _, rfl⟩
      cases hv : rsiAtQ prices period i with
      | none => simp [hv]; norm_num
      | some r =>
        have := rsiAtQ_bounds hv
        simp [hv]
        exact this
  · intro hlen i hi
    unfold calculate_rsi
    rw [if_neg (by omega)]
    rw [getD_range_map _ _ _ (by omega)]
    rw [rsiAtQ_none_of_lt (by omega)]
    rfl
  · intro hlen
    unfold calculate_rsi
    rw [if_pos hlen]

/-- Counterexample for C4 as stated: on the 3-price history `[1,2,3]` with
the default period 14, every position lacks history, yet the output is the
zero fill `[0,0,0]`, not 50. -/
theorem C4_counterexample :
    calculate_rsi [1, 2, 3] 14 = [0, 0, 0] ∧ (0 : ℚ) ≠ 50 := by
  constructor
  · rw [(C4_calculate_rsi [1, 2, 3] 14).2.2.2 (by norm_num)]
    rfl
  · norm_num

/-- Witness for C4: with period 2 on `[1,2,3]` the leading cell is 50, and a
too-short history is zero-filled. -/
theorem C4_calculate_rsi_witness :
    (calculate_rsi [1, 2, 3] 2).getD 0 0 = 50
    ∧ calculate_rsi [1, 2] 14 = List.replicate 2 0 :=
  ⟨(C4_calculate_rsi [1, 2, 3] 2).2.2.1 (by norm_num) 0 (by norm_num),
   (C4_calculate_rsi [1, 2] 14).2.2.2 (by norm_num)⟩

/-- Claim C5 (amended): at any position whose rolling window is complete and
whose trailing average loss is exactly 0, the RSI output cell is the neutral
50 exactly when the trailing average gain is also 0 (the `NaN` filled by
`fillna(50)`), and exactly 100 otherwise (the float `+inf` ratio collapses
to 100); either way a well-defined finite value, never `NaN`/infinity. -/
theorem C5_rsi_zero_loss (prices : List ℚ) (period i : ℕ)
    (hlen : period + 1 ≤ prices.length) (hi : i < prices.length)
    (g : ℚ) (hg : rollMeanQ (gainListQ prices) period i = some g)
    (hl : rollMeanQ (lossListQ prices) period i = some 0) :
    (calculate_rsi prices period).getD i 0 = if g = 0 then 50 else 100 := by
  unfold calculate_rsi
  rw [if_neg (by omega)]
  rw [getD_range_map _ _ _ hi]
  unfold rsiAtQ
  rw [hg, hl]
  dsimp only
  rw [if_pos rfl]
  by_cases hgz : g = 0
  · rw [if_pos hgz, if_pos hgz]
    rfl
  · rw [if_neg hgz, if_neg hgz]
    rfl

/-- Counterexample for C5 as stated: on the strictly increasing history
`[1,2,3]` with period 2, the last position has trailing average loss exactly
0, yet its RSI value is 100, not the claimed neutral 50. -/
theorem C5_counterexample :
    rollMeanQ (lossListQ [1, 2, 3]) 2 2 = some 0
    ∧ (calculate_rsi [1, 2, 3] 2).getD 2 0 = 100
    ∧ (100 : ℚ) ≠ 50 := by
  have hl : lossListQ [1, 2, 3] = [0, 0, 0] := by
    unfold lossListQ
    norm_num [List.range, List.range.loop, List.getD]
  have hg : gainListQ [1, 2, 3] = [0, 1, 1] := by
    unfold gainListQ
    norm_num [List.range, List.range.loop, List.getD]
  have hlm : rollMeanQ (lossListQ [1, 2, 3]) 2 2 = some 0 := by
    rw [hl]
    norm_num [rollMeanQ]
  have hgm : rollMeanQ (gainListQ [1, 2, 3]) 2 2 = some 1 := by
    rw [hg]
    norm_num [rollMeanQ]
  refine ⟨hlm, ?_, by norm_num⟩
  unfold calculate_rsi
  rw [if_neg (by norm_num)]
  rw [getD_range_map _ _ _ (by norm_num)]
  unfold rsiAtQ
  rw [hgm, hlm]
  norm_num

/-- Witness for C5 at period 2 on `[1,2,3]`, index 2: zero average loss with
positive average gain yields 100. -/
theorem C5_rsi_zero_loss_witness :
    (calculate_rsi [1, 2, 3] 2).getD 2 0 = if (1 : ℚ) = 0 then 50 else 100 := by
  have hg : gainListQ [1, 2, 3] = [0, 1, 1] := by
    unfold gainListQ
    norm_num [List.range, List.range.loop, List.getD]
  have hl : lossListQ [1, 2, 3] = [0, 0, 0] := by
    unfold lossListQ
    norm_num [List.range, List.range.loop, List.getD]
  refine C5_rsi_zero_loss [1, 2, 3] 2 2 (by norm_num) (by norm_num) 1 ?_ ?_
  · rw [hg]
    norm_num [rollMeanQ]
  · rw [hl]
    norm_num [rollMeanQ]

/-- `PriceDataProcessor.calculate_bollinger_bands` (lines 337-355 of
`data_service.py`), returning `(upper, middle, lower)`: empty sequences when
fewer than `window` prices exist, otherwise per-index bands with `NaN` cells
filled by 0 (`fillna(0)`). -/
noncomputable def calculate_bollinger_bands (prices : List ℝ) (window : ℕ)
    (std_dev : ℝ) : List ℝ × List ℝ × List ℝ :=
  if prices.length < window then ([], [], [])
  else
    ((List.range prices.length).map (fun i =>
        match bbUpperAt prices window std_dev i with
        | some u => u
        | none => 0),
     (List.range prices.length).map (fun i => (rollMean prices window i).getD 0),
     (List.range prices.length).map (fun i =>
        match bbLowerAt prices window std_dev i with
        | some u => u
        | none => 0))

lemma rollMean_none_of_lt {prices : List ℝ} {window i : ℕ}
    (h : i + 1 < window) : rollMean prices window i = none := by
  unfold rollMean
  rw [if_neg (by omega)]

lemma rollMean_eq_of_le {prices : List ℝ} {window i : ℕ}
    (h1 : window ≤ i + 1) (h2 : i < prices.length) :
    rollMean prices window i =
      some (((prices.drop (i + 1 - window)).take window).sum / (window : ℝ)) := by
  unfold rollMean
  rw [if_pos ⟨h1, h2⟩]

lemma rollVar_eq_of_le {prices : List ℝ} {window i : ℕ} (hw : 2 ≤ window)
    (h1 : window ≤ i + 1) (h2 : i < prices.length) :
    rollVar prices window i =
      some ((((prices.drop (i + 1 - window)).take window).map
        (fun x => (x - ((prices.drop (i + 1 - window)).take window).sum /
          (window : ℝ)) ^ 2)).sum / ((window : ℝ) - 1)) := by
  unfold rollVar
  rw [if_pos ⟨hw, h1, h2⟩]

lemma bbUpperAt_eq_none {prices : List ℝ} {window : ℕ} {std_dev : ℝ} {i : ℕ}
    (h : rollMean prices window i = none) :
    bbUpperAt prices window std_dev i = none := by
  unfold bbUpperAt
  rw [h]

lemma bbLowerAt_eq_none {prices : List ℝ} {window : ℕ} {std_dev : ℝ} {i : ℕ}
    (h : rollMean prices window i = none) :
    bbLowerAt prices window std_dev i = none := by
  unfold bbLowerAt
  rw [h]

lemma bbUpperAt_eq_of_le {prices : List ℝ} {window : ℕ} {std_dev : ℝ} {i : ℕ}
    (hw : 2 ≤ window) (h1 : window ≤ i + 1) (h2 : i < prices.length) :
    bbUpperAt prices window std_dev i =
      some (((prices.drop (i + 1 - window)).take window).sum / (window : ℝ) +
        std_dev * Real.sqrt ((((prices.drop (i + 1 - window)).take window).map
          (fun x => (x - ((prices.drop (i + 1 - window)).take window).sum /
            (window : ℝ)) ^ 2)).sum / ((window : ℝ) - 1))) := by
  unfold bbUpperAt rollStd
  rw [rollMean_eq_of_le h1 h2, rollVar_eq_of_le hw h1 h2]
  rfl

lemma bbLowerAt_eq_of_le {prices : List ℝ} {window : ℕ} {std_dev : ℝ} {i : ℕ}
    (hw : 2 ≤ window) (h1 : window ≤ i + 1) (h2 : i < prices.length) :
    bbLowerAt prices window std_dev i =
      some (((prices.drop (i + 1 - window)).take window).sum / (window : ℝ) -
        std_dev * Real.sqrt ((((prices.drop (i + 1 - window)).take window).map
          (fun x => (x - ((prices.drop (i + 1 - window)).take window).sum /
            (window : ℝ)) ^ 2)).sum / ((window : ℝ) - 1))) := by
  unfold bbLowerAt rollStd
  rw [rollMean_eq_of_le h1 h2, rollVar_eq_of_le hw h1 h2]
  rfl

/-- Claim C6 (amended): when the input is shorter than the window the three
returned sequences are empty (not zero-filled at input length); otherwise
all three have the input's length, positions with an incomplete rolling
window are 0 in all three bands, and complete positions equal the trailing
mean and the trailing mean plus/minus `std_dev` times the trailing sample
standard deviation. -/
theorem C6_bollinger_bands (prices : List ℝ) (window : ℕ) (std_dev : ℝ)
    (hw : 2 ≤ window) :
    (prices.length < window →
      calculate_bollinger_bands prices window std_dev = ([], [], []))
    ∧ (window ≤ prices.length →
      ((calculate_bollinger_bands prices window std_dev).1.length =
          prices.length
        ∧ (calculate_bollinger_bands prices window std_dev).2.1.length =
          prices.length
        ∧ (calculate_bollinger_bands prices window std_dev).2.2.length =
          prices.length)
      ∧ (∀ i, i + 1 < window →
          (calculate_bollinger_bands prices window std_dev).1.getD i 1 = 0
          ∧ (calculate_bollinger_bands prices window std_dev).2.1.getD i 1 = 0
          ∧ (calculate_bollinger_bands prices window std_dev).2.2.getD i 1 = 0)
      ∧ (∀ i, window ≤ i + 1 → i < prices.length →
          (calculate_bollinger_bands prices window std_dev).2.1.getD i 0 =
            ((prices.drop (i + 1 - window)).take window).sum / (window : ℝ)
          ∧ (calculate_bollinger_bands prices window std_dev).1.getD i 0 =
            ((prices.drop (i + 1 - window)).take window).sum / (window : ℝ) +
              std_dev * Real.sqrt
                ((((prices.drop (i + 1 - window)).take window).map
                  (fun x => (x - ((prices.drop (i + 1 - window)).take
                    window).sum / (window : ℝ)) ^ 2)).sum / ((window : ℝ) - 1))
          ∧ (calculate_bollinger_bands prices window std_dev).2.2.getD i 0 =
            ((prices.drop (i + 1 - window)).take window).sum / (window : ℝ) -
              std_dev * Real.sqrt
                ((((prices.drop (i + 1 - window)).take window).map
                  (fun x => (x - ((prices.drop (i + 1 - window)).take
                    window).sum / (window : ℝ)) ^ 2)).sum /
                  ((window : ℝ) - 1)))) := by
  constructor
  · intro h
    unfold calculate_bollinger_bands
    rw [if_pos h]
  · intro h
    have hnl : ¬ prices.length < window := not_lt.mpr h
    refine ⟨?_, ?_, ?_⟩
    · unfold calculate_bollinger_bands
      rw [if_neg hnl]
      exact ⟨by rw [List.length_map, List.length_range],
        by rw [List.length_map, List.length_range],
        by rw [List.length_map, List.length_range]⟩
    · intro i hi
      have hil : i < prices.length := by omega
      have hnone : rollMean prices window i = none := rollMean_none_of_lt hi
      unfold calculate_bollinger_bands
      rw [if_neg hnl]
      refine ⟨?_, ?_, ?_⟩
      · show ((List.range prices.length).map _).getD i 1 = 0
        rw [getD_range_map _ _ _ hil]
        rw [bbUpperAt_eq_none hnone]
      · show ((List.range prices.length).map _).getD i 1 = 0
        rw [getD_range_map _ _ _ hil]
        rw [hnone]
        rfl
      · show ((List.range prices.length).map _).getD i 1 = 0
        rw [getD_range_map _ _ _ hil]
        rw [bbLowerAt_eq_none hnone]
    · intro i h1 h2
      unfold calculate_bollinger_bands
      rw [if_neg hnl]
      refine ⟨?_, ?_, ?_⟩
      · show ((List.range prices.length).map _).getD i 0 = _
        rw [getD_range_map _ _ _ h2]
        rw [rollMean_eq_of_le h1 h2]
        rfl
      · show ((List.range prices.length).map _).getD i 0 = _
        rw [getD_range_map _ _ _ h2]
        rw [bbUpperAt_eq_of_le hw h1 h2]
      · show ((List.range prices.length).map _).getD i 0 = _
        rw [getD_range_map _ _ _ h2]
        rw [bbLowerAt_eq_of_le hw h1 h2]

/-- Counterexample for C6 as stated: on the single-price history `[1]` with
the default window 20, the upper band comes back empty instead of having the
input's length 1 with a zero fill. -/
theorem C6_counterexample :
    (calculate_bollinger_bands [(1 : ℝ)] 20 2).1 = []
    ∧ ([(1 : ℝ)]).length = 1 := by
  constructor
  · unfold calculate_bollinger_bands
    rw [if_pos (by norm_num)]
  · rfl

/-- Witness for C6 on `[1,1]` with window 2: equal lengths and a zero fill
at the incomplete leading position. -/
theorem C6_bollinger_bands_witness :
    (calculate_bollinger_bands [(1 : ℝ), 1] 2 2).1.length = 2
    ∧ (calculate_bollinger_bands [(1 : ℝ), 1] 2 2).1.getD 0 1 = 0 := by
  have h := (C6_bollinger_bands [(1 : ℝ), 1] 2 2 (le_refl 2)).2 (by norm_num)
  exact ⟨h.1.1, (h.2.1 0 (by norm_num)).1⟩

/-! ### Advisory layer (`llm_service.py`)

The persistent store is modelled as `String → Option CacheEntry`, time as a
rational timestamp in hours (so the `timedelta(hours=24)` TTL is `+ 24`).
The MD5 content hash and the prompt template built from a `StrategyResult`
are modelled as opaque pure function parameters; the cache and fallback
logic is embedded exactly, including Python string truthiness (`None` and
`""` are both falsy). -/

/-- One row of the `llm_cache` table (`database.py`). -/
structure CacheEntry where
  prompt : String
  response : String
  expires_at : ℚ
deriving DecidableEq

/-- `LLMService._get_cached_response` (lines 145-158): a hit requires the
entry to exist and `expires_at > now` (strict). -/
def get_cached (store : String → Option CacheEntry) (key : String)
    (now : ℚ) : Option String :=
  match store key with
  | some e => if now < e.expires_at then some e.response else none
  | none => none

/-- `LLMService._save_to_cache` (lines 160-174): stores the entry under the
key with `expires_at = now + 24` hours. -/
def save_to_cache (store : String → Option CacheEntry)
    (key prompt response : String) (now : ℚ) : String → Option CacheEntry :=
  fun k => if k = key then some ⟨prompt, response, now + 24⟩ else store k

/-- Python truthiness of an `Optional[str]`. -/
def truthy : Option String → Bool
  | none => false
  | some s => !(s == "")

/-- `LLMService._rule_based_advice` (lines 222-249): a pure function of the
final action and the confidence (the `votes` field is read but unused). -/
def rule_based_advice (sr : StrategyResult) : String :=
  let base :=
    match sr.final_action with
    | Act.buy => "技术指标显示上涨信号，建议适度建仓"
    | Act.sell => "技术指标显示调整风险，建议适当减仓"
    | Act.hold => "市场方向不明，建议观望等待"
  let advice :=
    if 3/4 < sr.confidence then base ++ "，信号较强。"
    else if sr.confidence < 11/20 then base ++ "，信号较弱，谨慎操作。"
    else base ++ "。"
  match sr.final_action with
  | Act.buy => advice ++ "注意控制仓位，设置止损位。"
  | Act.sell => advice ++ "可考虑分批减仓，回调后择机接回。"
  | Act.hold => advice

/-- Observable outcome of one `generate_advice` call: the returned text,
the store afterwards, and whether the external provider was invoked. -/
structure AdviceOut where
  advice : String
  store : String → Option CacheEntry
  provider_called : Bool

/-- `LLMService.generate_advice` (lines 176-220): cache lookup, provider
call on a miss, save only on a truthy provider response, rule-based
fallback otherwise. -/
def generate_advice (promptOf : StrategyResult → String)
    (hashFn : String → String) (provider : String → Option String)
    (store : String → Option CacheEntry) (now : ℚ) (sr : StrategyResult) :
    AdviceOut :=
  let prompt := promptOf sr
  let cache_key := hashFn prompt
  let cached := get_cached store cache_key now
  if truthy cached then
    { advice := cached.getD "", store := store, provider_called := false }
  else
    let response := provider prompt
    if truthy response then
      { advice := response.getD ""
        store := save_to_cache store cache_key prompt (response.getD "") now
        provider_called := true }
    else
      { advice := rule_based_advice sr, store := store, provider_called := true }

/-- Claim C7 (amended): a call whose prompt key holds a cached entry with a
non-empty response returns that response without invoking the provider
exactly when `now` is strictly before `expires_at` (the code tests
`expires_at > now`, so a call at `now = expires_at` is already a miss);
at or after expiry the provider is invoked; and on a miss followed by a
truthy provider response a new entry with `expires_at = now + 24` hours is
stored under the key and the response returned. -/
theorem C7_advice_cache (promptOf : StrategyResult → String)
    (hashFn : String → String) (provider : String → Option String)
    (store : String → Option CacheEntry) (now : ℚ) (sr : StrategyResult) :
    (∀ e, store (hashFn (promptOf sr)) = some e → e.response ≠ "" →
      now < e.expires_at →
      generate_advice promptOf hashFn provider store now sr =
        ⟨e.response, store, false⟩)
    ∧ (∀ e, store (hashFn (promptOf sr)) = some e → e.expires_at ≤ now →
      (generate_advice promptOf hashFn provider store now sr).provider_called
        = true)
    ∧ (truthy (get_cached store (hashFn (promptOf sr)) now) = false →
      ∀ r, provider (promptOf sr) = some r → r ≠ "" →
      (generate_advice promptOf hashFn provider store now sr).store
          (hashFn (promptOf sr)) = some ⟨promptOf sr, r, now + 24⟩
      ∧ (generate_advice promptOf hashFn provider store now sr).advice = r) := by
  refine ⟨?_, ?_, ?_⟩
  · intro e he hne hlt
    have hc : get_cached store (hashFn (promptOf sr)) now = some e.response := by
      unfold get_cached
      rw [he]
      show (if now < e.expires_at then some e.response else none) = _
      rw [if_pos hlt]
    have hb : (e.response == "") = false := beq_eq_false_iff_ne.mpr hne
    have ht : truthy (get_cached store (hashFn (promptOf sr)) now) = true := by
      rw [hc]
      show (!(e.response == "")) = true
      rw [hb]
      rfl
    unfold generate_advice
    dsimp only
    rw [ht, if_pos rfl, hc]
    rfl
  · intro e he hle
    have hc : get_cached store (hashFn (promptOf sr)) now = none := by
      unfold get_cached
      rw [he]
      show (if now < e.expires_at then some e.response else none) = _
      rw [if_neg (not_lt.mpr hle)]
    unfold generate_advice
    dsimp only
    rw [hc]
    rw [if_neg (by simp [truthy])]
    split_ifs <;> rfl
  · intro hmiss r hr hrne
    have hb : (r == "") = false := beq_eq_false_iff_ne.mpr hrne
    have ht : truthy (provider (promptOf sr)) = true := by
      rw [hr]
      show (!(r == "")) = true
      rw [hb]
      rfl
    unfold generate_advice
    dsimp only
    rw [hmiss]
    rw [if_neg (by simp)]
    rw [ht, if_pos rfl, hr]
    constructor
    · show save_to_cache store (hashFn (promptOf sr)) (promptOf sr)
          ((some r).getD "") now (hashFn (promptOf sr)) = _
      unfold save_to_cache
      rw [if_pos rfl]
      rfl
    · rfl

/-- Counterexample for C7 as stated: with a cached entry expiring at time
200 and a call exactly at `now = 200` (so `now ≤ expires_at` holds), the
code treats it as a miss: the provider is invoked and its response "Y" is
returned instead of the stored "X". -/
theorem C7_counterexample :
    (generate_advice (fun _ => "P") (fun s => s) (fun _ => some "Y")
        (fun k => if k = "P" then some ⟨"P", "X", 200⟩ else none) 200
        ⟨[], Act.hold, 1/2, fun _ => 0⟩).advice = "Y"
    ∧ (generate_advice (fun _ => "P") (fun s => s) (fun _ => some "Y")
        (fun k => if k = "P" then some ⟨"P", "X", 200⟩ else none) 200
        ⟨[], Act.hold, 1/2, fun _ => 0⟩).provider_called = true
    ∧ ("Y" : String) ≠ "X" := by
  refine ⟨?_, ?_, by decide⟩
  · unfold generate_advice get_cached truthy save_to_cache
    norm_num
    rw [if_neg (by decide : ¬ ("Y" : String) = "")]
  · unfold generate_advice get_cached truthy
    norm_num
    rw [if_neg (by decide : ¬ ("Y" : String) = "")]

/-- Witness for C7: an unexpired non-empty entry at `now = 100 < 200` is
returned without a provider call. -/
theorem C7_advice_cache_witness :
    generate_advice (fun _ => "P") (fun s => s) (fun _ => some "Y")
        (fun k => if k = "P" then some ⟨"P", "X", 200⟩ else none) 100
        ⟨[], Act.hold, 1/2, fun _ => 0⟩ =
      ⟨"X", fun k => if k = "P" then some ⟨"P", "X", 200⟩ else none, false⟩ :=
  (C7_advice_cache (fun _ => "P") (fun s => s) (fun _ => some "Y")
      (fun k => if k = "P" then some ⟨"P", "X", 200⟩ else none) 100
      ⟨[], Act.hold, 1/2, fun _ => 0⟩).1
    ⟨"P", "X", 200⟩ (by simp) (by decide) (by norm_num)

/-- Claim C8: on a cache miss, when the provider yields no truthy text,
`generate_advice` still returns a string, namely the rule-based fallback,
and writes nothing to the cache; the fallback itself is a pure function of
`(final_action, confidence)` and by construction touches neither the
provider nor the store. -/
theorem C8_rule_based_fallback (promptOf : StrategyResult → String)
    (hashFn : String → String) (provider : String → Option String)
    (store : String → Option CacheEntry) (now : ℚ) (sr : StrategyResult) :
    (truthy (get_cached store (hashFn (promptOf sr)) now) = false →
      truthy (provider (promptOf sr)) = false →
      (generate_advice promptOf hashFn provider store now sr).advice =
        rule_based_advice sr
      ∧ (generate_advice promptOf hashFn provider store now sr).store = store)
    ∧ (∀ sr' : StrategyResult, sr.final_action = sr'.final_action →
        sr.confidence = sr'.confidence →
        rule_based_advice sr = rule_based_advice sr') := by
  constructor
  · intro hmiss hprov
    unfold generate_advice
    dsimp only
    rw [hmiss]
    rw [if_neg (by simp)]
    rw [hprov]
    rw [if_neg (by simp)]
    exact ⟨rfl, rfl⟩
  · intro sr' h1 h2
    unfold rule_based_advice
    rw [h1, h2]

/-- Witness for C8: empty store, provider returning nothing, Hold at
confidence 0.5 falls back to the canned Hold sentence. -/
theorem C8_rule_based_fallback_witness :
    (generate_advice (fun _ => "P") (fun s => s) (fun _ => none)
        (fun _ => none) 0 ⟨[], Act.hold, 1/2, fun _ => 0⟩).advice =
      rule_based_advice ⟨[], Act.hold, 1/2, fun _ => 0⟩
    ∧ rule_based_advice ⟨[], Act.hold, 1/2, fun _ => 0⟩ =
      rule_based_advice ⟨[], Act.hold, 1/2, fun _ => 1⟩ :=
  ⟨((C8_rule_based_fallback (fun _ => "P") (fun s => s) (fun _ => none)
      (fun _ => none) 0 ⟨[], Act.hold, 1/2, fun _ => 0⟩).1 rfl rfl).1,
   (C8_rule_based_fallback (fun _ => "P") (fun s => s) (fun _ => none)
      (fun _ => none) 0 ⟨[], Act.hold, 1/2, fun _ => 0⟩).2
     ⟨[], Act.hold, 1/2, fun _ => 1⟩ rfl rfl⟩

/-! ### Synthetic fallback generator (`ETFDataService._generate_mock_history`)

`np.random` after `np.random.seed(s)` is modelled as an abstract
deterministic stream `stream s k` giving the `k`-th draw after seeding with
`s`; the day loop draws `randn` at even indices and `uniform` at odd
indices.  Python's `hash` is modelled as an abstract pure function
`hashFn`; `today` (`datetime.now()`) is an explicit day-number parameter. -/

/-- The unrounded running price after `j` iterations:
`current_price *= (1 + randn_j * 0.02)`. -/
def mockCurrent (stream : ℕ → ℕ → ℚ) (seed : ℕ) (base : ℚ) : ℕ → ℚ
  | 0 => base
  | j + 1 => mockCurrent stream seed base j * (1 + stream seed (2 * j) * (2/100))

/-- Python `round(x, 3)`. -/
def round3 (x : ℚ) : ℚ := (pyRound (x * 1000) : ℚ) / 1000

/-- `ETFDataService._generate_mock_history` (lines 229-258 of
`data_service.py`): returns `(dates, prices, volumes)`; the seed is
`hash(code) % 2**32`, the base price `3.0 + (hash(code) % 100) / 50`, and
volumes are truncated uniform draws (`int(...)`, a floor on the positive
draws). -/
def generate_mock_history (stream : ℕ → ℕ → ℚ) (hashFn : String → ℕ)
    (code : String) (days : ℕ) (today : ℤ) : List ℤ × List ℚ × List ℤ :=
  let seed := hashFn code % 2 ^ 32
  let base_price : ℚ := 3 + ((hashFn code % 100 : ℕ) : ℚ) / 50
  ((List.range days).map (fun j => today - ((days : ℤ) - (j : ℤ))),
   (List.range days).map (fun j =>
     round3 (mockCurrent stream seed base_price (j + 1))),
   (List.range days).map (fun j => ⌊stream seed (2 * j + 1)⌋))

/-- Claim C9: the synthetic fallback is deterministic: its price and volume
sequences do not depend on the clock (`today`), and the whole output
depends on the instrument code only through `hashFn code` — so two calls
with the same identifier and length (same process, hence same `hashFn`)
produce identical price and volume sequences. -/
theorem C9_mock_history_deterministic (stream : ℕ → ℕ → ℚ)
    (hashFn : String → ℕ) (code : String) (days : ℕ) (t1 t2 : ℤ) :
    (generate_mock_history stream hashFn code days t1).2.1 =
      (generate_mock_history stream hashFn code days t2).2.1
    ∧ (generate_mock_history stream hashFn code days t1).2.2 =
      (generate_mock_history stream hashFn code days t2).2.2
    ∧ (∀ code', hashFn code' = hashFn code →
        generate_mock_history stream hashFn code' days t1 =
          generate_mock_history stream hashFn code days t1) := by
  refine ⟨rfl, rfl, fun code' h => ?_⟩
  unfold generate_mock_history
  rw [h]

/-- Witness for C9: under a constant hash, two different codes generate the
same synthetic history. -/
theorem C9_mock_history_deterministic_witness :
    generate_mock_history (fun _ k => (k : ℚ)) (fun _ => 7) "510301" 2 0 =
      generate_mock_history (fun _ k => (k : ℚ)) (fun _ => 7) "510300" 2 0 :=
  (C9_mock_history_deterministic (fun _ k => (k : ℚ)) (fun _ => 7)
      "510300" 2 0 0).2.2 "510301" rfl

/-- Witness for C10 on the empty price history. -/
theorem C10_confidence_invariant_witness :
    (ma_analyze 5 20 ([] : List ℝ)).confidence ∈
      ({1/2, 11/20, 3/5, 13/20, 7/10, 4/5, 17/20} : Set ℚ)
    ∧ (engine_analyze ([] : List ℝ)).confidence ∈ Set.Icc (1/2 : ℚ) (17/20) :=
  ⟨((C10_confidence_invariant []).1 (ma_analyze 5 20 []) (by simp)).2,
   (C10_confidence_invariant []).2⟩

end SIA
